import Mathlib

/-!
Verification development for the ArticleArc backend core:
the Interaction Recording & Analytics Engine and the Summary
Generation Pipeline.  Definitions are shallow embeddings of the
TypeScript source (`src/services/geminiService.ts`,
`src/utils/pagination.ts`, `src/utils/validation.ts`,
`src/controllers/interactionController.ts`,
`src/controllers/articleController.ts`, `src/models/Interaction.ts`).
-/

namespace ArticleArc

/-! ## Sentence Extractor (`geminiService.generateFallbackSummary`)

The source (geminiService.ts, lines 46-64):
```
const sentences = content
  .replace(/[.!?]+/g, '.|')
  .split('|')
  .map(s => s.trim())
  .filter(s => s.length > 20);
if (sentences.length === 0) {
  return content.substring(0, 150) + (content.length > 150 ? '...' : '');
}
const topSentences = sentences
  .slice(0, Math.min(3, sentences.length))
  .join(' ');
return topSentences.length > 300
  ? topSentences.substring(0, 297) + '...'
  : topSentences;
```
We model strings as their character lists.
-/

/-- The sentence-terminal punctuation class of the regex `[.!?]+`. -/
def isPunct (c : Char) : Bool := c = '.' || c = '!' || c = '?'

/-- `content.replace(/[.!?]+/g, '.|')`: every maximal run of
sentence-terminal punctuation is replaced by the two characters `.|`.
Implemented with one character of lookahead: a punctuation character
followed by another punctuation character is dropped (the run
continues); the last character of a run emits `.|`. -/
def punctReplace : List Char → List Char
  | [] => []
  | [c] => if isPunct c then ['.', '|'] else [c]
  | c :: d :: rest =>
    if isPunct c then
      if isPunct d then punctReplace (d :: rest)
      else '.' :: '|' :: punctReplace (d :: rest)
    else c :: punctReplace (d :: rest)

/-- `.split('|')` on a character list: JavaScript `String.split` keeps
empty segments, and splitting the empty string yields one empty
segment. -/
def splitOnBar : List Char → List (List Char)
  | [] => [[]]
  | c :: rest =>
    match splitOnBar rest with
    | [] => [[]]
    | s :: ss => if c = '|' then [] :: s :: ss else (c :: s) :: ss

/-- JavaScript `String.prototype.trim`: strip leading and trailing
whitespace. -/
def trimChars (l : List Char) : List Char :=
  ((l.dropWhile Char.isWhitespace).reverse.dropWhile Char.isWhitespace).reverse

/-- `Array.prototype.join(' ')`. -/
def joinSp : List (List Char) → List Char
  | [] => []
  | [s] => s
  | s :: rest => s ++ ' ' :: joinSp rest

/-- The surviving sentence candidates of `generateFallbackSummary`:
replace punctuation runs, split on `|`, trim each piece, keep the
pieces strictly longer than 20 characters. -/
def gfsCandidates (content : List Char) : List (List Char) :=
  ((splitOnBar (punctReplace content)).map trimChars).filter (fun s => 20 < s.length)

/-- `['.', '.', '.']`, the ellipsis marker appended by the source. -/
def dots : List Char := ['.', '.', '.']

/-- `generateFallbackSummary` on character lists, line for line from
geminiService.ts lines 46-64. -/
def gfsList (content : List Char) : List Char :=
  let sentences := gfsCandidates content
  if sentences.isEmpty then
    content.take 150 ++ (if 150 < content.length then dots else [])
  else
    let topSentences := joinSp (sentences.take (min 3 sentences.length))
    if 300 < topSentences.length then topSentences.take 297 ++ dots
    else topSentences

/-- `geminiService.generateFallbackSummary : string -> string`. -/
def generateFallbackSummary (content : String) : String :=
  ⟨gfsList content.data⟩

/-- JavaScript `String.prototype.trim` on strings (structural
recursion, so that it evaluates inside the kernel). -/
def strTrim (s : String) : String := ⟨trimChars s.data⟩

/-- JavaScript `String.prototype.toLowerCase`. -/
def strLower (s : String) : String := ⟨s.data.map Char.toLower⟩

/-! ## The Sentence Extractor algorithm as the specification words it

The spec describes the extractor as: split the text into candidate
sentences on sentence-terminal punctuation (each candidate keeping its
terminal punctuation run, as the spec's own worked scenario requires),
trim whitespace, discard candidates shorter than 20 characters, then
assemble.  `specSplitAux`/`specSplit` implement that split directly,
independently of the source's replace-then-split-on-`|` mechanism. -/

/-- Split into candidate sentences at sentence-terminal punctuation;
each candidate retains its terminal punctuation run. -/
def specSplitAux (acc : List Char) : List Char → List (List Char)
  | [] => if acc.isEmpty then [] else [acc.reverse]
  | [c] => [(c :: acc).reverse]
  | c :: d :: rest =>
    if isPunct c then
      if isPunct d then specSplitAux (c :: acc) (d :: rest)
      else ((c :: acc).reverse) :: specSplitAux [] (d :: rest)
    else specSplitAux (c :: acc) (d :: rest)

/-- Candidate sentences per the specification's wording. -/
def specSplit (l : List Char) : List (List Char) := specSplitAux [] l

/-- The assembly phase common to the spec's description and the code:
hard fallback to the first 150 characters when no candidate survives,
otherwise join the first `min(3, n)` survivors with single spaces and
truncate to 297 characters plus an ellipsis when over 300. -/
def specAssemble (content : List Char) (cands : List (List Char)) : List Char :=
  if cands.isEmpty then
    content.take 150 ++ (if 150 < content.length then dots else [])
  else
    let top := joinSp (cands.take (min 3 cands.length))
    if 300 < top.length then top.take 297 ++ dots
    else top

/-- The extractor exactly as the claim words it: candidates shorter
than 20 characters are discarded (candidates of exactly 20 characters
survive). -/
def specSentenceExtract (content : List Char) : List Char :=
  specAssemble content
    (((specSplit content).map trimChars).filter (fun s => 20 ≤ s.length))

/-- The amended split: candidates end at each maximal run of
sentence-terminal punctuation, the run normalized to a single period
kept on the candidate, and a literal `|` also acts as a separator (it
is not kept).  Implemented as a direct single-pass scanner,
independently of the source's replace-then-split-on-`|` mechanism. -/
def specSplitNormAux (acc : List Char) : List Char → List (List Char)
  | [] => if acc.isEmpty then [] else [acc.reverse]
  | [c] =>
    if isPunct c then [('.' :: acc).reverse]
    else if c = '|' then [acc.reverse]
    else [(c :: acc).reverse]
  | c :: d :: rest =>
    if isPunct c then
      if isPunct d then specSplitNormAux acc (d :: rest)
      else (('.' :: acc).reverse) :: specSplitNormAux [] (d :: rest)
    else if c = '|' then
      acc.reverse :: specSplitNormAux [] (d :: rest)
    else specSplitNormAux (c :: acc) (d :: rest)

/-- Candidate sentences of the amended algorithm. -/
def specSplitNorm (l : List Char) : List (List Char) := specSplitNormAux [] l

/-- The amended algorithm in full: the amended split, whitespace
trimming, the noise filter keeping only candidates strictly longer
than 20 characters (the code's `s.length > 20`), then the common
assembly phase. -/
def specSentenceExtractAmended (content : List Char) : List Char :=
  specAssemble content
    (((specSplitNorm content).map trimChars).filter (fun s => 20 < s.length))

/-- Whether the text ends with a sentence-terminal punctuation
character or a `|` (in these cases the code's split produces one
trailing empty segment that the amended split omits). -/
def endsPunctBar : List Char → Bool
  | [] => false
  | [c] => isPunct c || c = '|'
  | _ :: d :: rest => endsPunctBar (d :: rest)

/-- The trailing discrepancy between the code's split and the amended
split: an extra empty segment. -/
def extraEmptyNorm (l : List Char) (acc : List Char) : Bool :=
  match l with
  | [] => acc.isEmpty
  | _ => endsPunctBar l

/-! ## Pagination Resolver (`src/utils/pagination.ts`)

A query-string value reaching `parsePaginationQuery` is either absent
(including the empty string, which JavaScript treats as falsy), a
string `parseInt` reads as an integer `n`, or a string `parseInt`
fails on (`NaN`). -/

/-- One raw `page`/`limit`/`offset` query value. -/
inductive PagField where
  | absent
  | num (n : Int)
  | nonnum
deriving DecidableEq

/-- The raw pagination query. -/
structure PagQuery where
  page : PagField
  limit : PagField
  offset : PagField
deriving DecidableEq

/-- `parseInt(v, 10) || d`: JavaScript `||` replaces both `NaN` and
`0` by the fallback `d`. -/
def parseIntOr (f : PagField) (d : Int) : Int :=
  match f with
  | .num n => if n = 0 then d else n
  | _ => d

/-- Resolved pagination parameters. -/
structure PaginationParams where
  page : Nat
  limit : Nat
  skip : Nat
deriving DecidableEq

/-- `if (query.page) page = Math.max(1, parseInt(query.page, 10) || 1)`
with default 1. -/
def resolvedPage1 : PagField → Nat
  | .absent => 1
  | f => (max 1 (parseIntOr f 1)).toNat

/-- `if (query.limit) limit = Math.min(100, Math.max(1,
parseInt(query.limit, 10) || 10))` with default 10. -/
def resolvedLimit : PagField → Nat
  | .absent => 10
  | f => (min 100 (max 1 (parseIntOr f 10))).toNat

/-- `parsePaginationQuery` (pagination.ts lines 18-38).  `Math.max`/
`Math.min` clamps are taken in `Int` and the results, provably
non-negative, are read back as `Nat`; `Math.floor` of the non-negative
quotient is `Nat` division. -/
def parsePaginationQuery (q : PagQuery) : PaginationParams :=
  let page1 : Nat := resolvedPage1 q.page
  let limit : Nat := resolvedLimit q.limit
  let page2 : Nat :=
    match q.offset with
    | .absent => page1
    | f => (max 0 (parseIntOr f 0)).toNat / limit + 1
  { page := page2, limit := limit, skip := (page2 - 1) * limit }

/-- Response pagination metadata. -/
structure PaginationMeta where
  page : Nat
  limit : Nat
  total : Nat
  totalPages : Nat
  hasNext : Bool
  hasPrev : Bool
deriving DecidableEq

/-- `createPaginationMeta` (pagination.ts lines 40-55).
`Math.ceil(total / limit)` for the positive `limit` of every call
site is `(total + limit - 1) / limit` in `Nat`. -/
def createPaginationMeta (page limit total : Nat) : PaginationMeta :=
  let totalPages := (total + limit - 1) / limit
  { page := page, limit := limit, total := total, totalPages := totalPages,
    hasNext := decide (page < totalPages), hasPrev := decide (1 < page) }

/-! ## Data model (`src/models`, `src/utils/validation.ts`) -/

/-- The closed interaction-kind enumeration. -/
inductive Kind where
  | view
  | like
  | share
deriving DecidableEq

/-- `Joi.string().valid('view', 'like', 'share')`. -/
def parseKind (s : String) : Option Kind :=
  if s = "view" then some .view
  else if s = "like" then some .like
  else if s = "share" then some .share
  else none

/-- A hexadecimal digit, as in the ObjectId pattern. -/
def isHexDigitChar (c : Char) : Bool :=
  c.isDigit || ('a' ≤ c && c ≤ 'f') || ('A' ≤ c && c ≤ 'F')

/-- The Joi ObjectId pattern `^[0-9a-fA-F]{24}$`. -/
def isHex24 (s : String) : Bool :=
  decide (s.length = 24) && s.data.all isHexDigitChar

/-- A stored user document (the fields this core reads). -/
structure UserRec where
  id : String
  username : String
deriving DecidableEq

/-- A stored article document (the fields this core reads). -/
structure ArticleRec where
  id : String
  title : String
  author : String
  tags : List String
  summary : String
  content : String
deriving DecidableEq

/-- A stored interaction document: the `interactionSchema` fields plus
the `timestamps: true` creation time. -/
structure InteractionRec where
  id : String
  userId : String
  articleId : String
  kind : Kind
  createdAt : Nat
deriving DecidableEq

/-- The document store reachable through the mongoose driver. -/
structure DB where
  users : List UserRec
  articles : List ArticleRec
  interactions : List InteractionRec
deriving DecidableEq

/-- The `(userId, articleId, interactionType)` triple predicate of the
unique index in Interaction.ts line 33. -/
def sameTriple (userId articleId : String) (k : Kind) (r : InteractionRec) : Bool :=
  decide (r.userId = userId) && decide (r.articleId = articleId) && decide (r.kind = k)

/-- Number of stored interactions matching a triple. -/
def countTriple (db : DB) (userId articleId : String) (k : Kind) : Nat :=
  db.interactions.countP (sameTriple userId articleId k)

/-! ## Interaction Store: create (`interactionController.createInteraction`) -/

/-- `populate('userId', 'username')` result: the referenced user's
`_id` and `username`. -/
structure UserPop where
  id : String
  username : String
deriving DecidableEq

/-- `populate('articleId', 'title author')` result. -/
structure ArtPop where
  id : String
  title : String
  author : String
deriving DecidableEq

/-- The populated interaction document returned by a 201 creation. -/
structure CreatedDoc where
  id : String
  userId : Option UserPop
  articleId : Option ArtPop
  interactionType : Kind
  createdAt : Nat
deriving DecidableEq

/-- The HTTP-facing outcome of `POST /interactions`. -/
inductive CreateResult where
  | created (data : Option CreatedDoc)
  | alreadyExists (data : InteractionRec)
  | articleNotFound
  | validationError
  | serverError
deriving DecidableEq

/-- HTTP status code of each `createInteraction` response. -/
def CreateResult.status : CreateResult → Nat
  | .created _ => 201
  | .alreadyExists _ => 409
  | .articleNotFound => 404
  | .validationError => 400
  | .serverError => 500

/-- The `success` flag in each `createInteraction` response body.  The
409 duplicate response carries `success: true`. -/
def CreateResult.success : CreateResult → Bool
  | .created _ => true
  | .alreadyExists _ => true
  | .articleNotFound => false
  | .validationError => false
  | .serverError => false

/-- `Interaction.findById(id).populate('userId', 'username')
.populate('articleId', 'title author').lean()`. -/
def populateCreated (db : DB) (iid : String) : Option CreatedDoc :=
  (db.interactions.find? (fun r => decide (r.id = iid))).map fun r =>
    { id := r.id
      userId := (db.users.find? (fun u => decide (u.id = r.userId))).map
        fun u => { id := u.id, username := u.username }
      articleId := (db.articles.find? (fun a => decide (a.id = r.articleId))).map
        fun a => { id := a.id, title := a.title, author := a.author }
      interactionType := r.kind
      createdAt := r.createdAt }

/-- `createInteraction` (interactionController.ts lines 289-364), with
the check-then-insert race made explicit: `race` is the list of
interaction documents committed by concurrent requests between this
request's `findOne` existence check and its `save()`.  The `save()`
against the unique index fails when a matching triple is already
stored, and the controller's catch-all converts that failure into a
500 response.  A same-request sequential call passes `race = []`. -/
def createInteractionR (db : DB) (race : List InteractionRec) (newId : String)
    (now : Nat) (userId articleIdStr kindStr : String) : CreateResult × DB :=
  if !(isHex24 articleIdStr) then (.validationError, db)
  else
    match parseKind kindStr with
    | none => (.validationError, db)
    | some k =>
      match db.articles.find? (fun a => decide (a.id = articleIdStr)) with
      | none => (.articleNotFound, db)
      | some _ =>
        match db.interactions.find? (sameTriple userId articleIdStr k) with
        | some existing => (.alreadyExists existing, db)
        | none =>
          let db1 : DB := { db with interactions := db.interactions ++ race }
          if db1.interactions.any (sameTriple userId articleIdStr k) then
            (.serverError, db1)
          else
            let db2 : DB :=
              { db1 with interactions :=
                  db1.interactions ++ [⟨newId, userId, articleIdStr, k, now⟩] }
            (.created (populateCreated db2 newId), db2)

/-- `createInteraction` with no concurrent writer. -/
def createInteraction (db : DB) (newId : String) (now : Nat)
    (userId articleIdStr kindStr : String) : CreateResult × DB :=
  createInteractionR db [] newId now userId articleIdStr kindStr

/-! ## Interaction Store: query + analytics
(`interactionController.getUserInteractions`) -/

/-- `populate('articleId', 'title author tags summary')` result. -/
structure ArtView where
  id : String
  title : String
  author : String
  tags : List String
  summary : String
deriving DecidableEq

/-- A listed interaction document.  `userIdField` records whether the
serialized document still carries a `userId` field. -/
structure InteractionDoc where
  id : String
  articleId : Option ArtView
  interactionType : Kind
  createdAt : Nat
  userIdField : Option String
deriving DecidableEq

/-- The document as read from the store, `userId` included, with the
article reference populated. -/
def toListedDocRaw (arts : List ArticleRec) (r : InteractionRec) : InteractionDoc :=
  { id := r.id
    articleId := (arts.find? (fun a => decide (a.id = r.articleId))).map
      fun a => { id := a.id, title := a.title, author := a.author,
                 tags := a.tags, summary := a.summary }
    interactionType := r.kind
    createdAt := r.createdAt
    userIdField := some r.userId }

/-- `.select('-userId -__v')`: drop the user reference field. -/
def selectMinusUserId (d : InteractionDoc) : InteractionDoc :=
  { d with userIdField := none }

/-- The projection applied to each listed record. -/
def listProject (arts : List ArticleRec) (r : InteractionRec) : InteractionDoc :=
  selectMinusUserId (toListedDocRaw arts r)

/-- `interactionQueryValidation` on the pagination fields: `page` an
integer at least 1, `limit` an integer in `[1, 100]`, `offset` a
non-negative integer; non-numeric strings are rejected.  The
`interactionType` and `articleId` filters are validated into the
typed options passed to `getUserInteractions`. -/
def interactionQueryValid (q : PagQuery) : Bool :=
  (match q.page with
   | .absent => true
   | .num n => decide (1 ≤ n)
   | .nonnum => false)
  && (match q.limit with
      | .absent => true
      | .num n => decide (1 ≤ n) && decide (n ≤ 100)
      | .nonnum => false)
  && (match q.offset with
      | .absent => true
      | .num n => decide (0 ≤ n)
      | .nonnum => false)

/-- The optional `interactionType` filter predicate. -/
def matchesType (tf : Option Kind) (r : InteractionRec) : Bool :=
  match tf with
  | none => true
  | some k => decide (r.kind = k)

/-- The optional `articleId` filter predicate. -/
def matchesArticle (af : Option String) (r : InteractionRec) : Bool :=
  match af with
  | none => true
  | some a => decide (r.articleId = a)

/-- The dynamically built query filter `{ userId, interactionType?,
articleId? }` (lines 393-403): always scoped to the requesting user,
optionally narrowed by kind and article. -/
def matchesFilters (u : String) (tf : Option Kind) (af : Option String)
    (r : InteractionRec) : Bool :=
  decide (r.userId = u) && (matchesType tf r && matchesArticle af r)

/-- `Interaction.find(filters)` / the `$match` stage: all records
matching the filter. -/
def matchedRecords (db : DB) (u : String) (tf : Option Kind)
    (af : Option String) : List InteractionRec :=
  db.interactions.filter (matchesFilters u tf af)

/-- `.sort({ createdAt: -1 })`: newest first. -/
def sortByCreatedAtDesc (l : List InteractionRec) : List InteractionRec :=
  List.insertionSort (fun a b => b.createdAt ≤ a.createdAt) l

/-- The page of records: sort, `.skip(skip)`, `.limit(limit)`. -/
def selectedRecords (db : DB) (u : String) (q : PagQuery) (tf : Option Kind)
    (af : Option String) : List InteractionRec :=
  let p := parsePaginationQuery q
  ((sortByCreatedAtDesc (matchedRecords db u tf af)).drop p.skip).take p.limit

/-- The `stats` rollup of the response. -/
structure StatsOut where
  totalViews : Nat
  totalLikes : Nat
  totalShares : Nat
deriving DecidableEq

/-- The `$group`-by-kind aggregation folded into the response's stats
object (lines 420-453); a kind with no matching record keeps count 0. -/
def interactionStats (l : List InteractionRec) : StatsOut :=
  { totalViews := l.countP (fun r => decide (r.kind = .view))
    totalLikes := l.countP (fun r => decide (r.kind = .like))
    totalShares := l.countP (fun r => decide (r.kind = .share)) }

/-- The HTTP-facing outcome of `GET /interactions` for an
authenticated user. -/
inductive GetResult where
  | badRequest
  | ok (data : List InteractionDoc) (pagination : PaginationMeta) (stats : StatsOut)
deriving DecidableEq

/-- `getUserInteractions` (interactionController.ts lines 366-471):
validate the query, resolve pagination, then run the paginated
filtered read, the total count and the per-kind aggregation against
the same snapshot and merge them into one response. -/
def getUserInteractions (db : DB) (u : String) (q : PagQuery) (tf : Option Kind)
    (af : Option String) : GetResult :=
  if !(interactionQueryValid q) then .badRequest
  else
    let p := parsePaginationQuery q
    let matched := matchedRecords db u tf af
    .ok ((selectedRecords db u q tf af).map (listProject db.articles))
      (createPaginationMeta p.page p.limit matched.length)
      (interactionStats matched)

/-! ## Summary Generation Pipeline (`articleController.createArticle`) -/

/-- `articleValidation` (validation.ts lines 34-52): Joi converts each
string by trimming, then checks the bounds; `Joi.string()` rejects a
value that is empty after trimming. -/
def articleValidate (title content : String) (summary : Option String)
    (tags : List String) : Bool :=
  decide (5 ≤ (strTrim title).length) && decide ((strTrim title).length ≤ 200)
  && decide (50 ≤ (strTrim content).length)
  && (match summary with
      | none => true
      | some s => decide (1 ≤ (strTrim s).length) && decide ((strTrim s).length ≤ 500))
  && decide (tags.length ≤ 10)
  && tags.all (fun tg =>
      decide (1 ≤ (strTrim tg).length) && decide ((strTrim tg).length ≤ 30))

/-- The summary selection of `createArticle` (articleController.ts
lines 168-181) over the Joi-converted (trimmed) values.  `avail` is
`geminiService.isAvailable()`; `aiRaw` is the text returned by the
external AI call, `none` when the call throws.  `generateSummary`
throws on an unavailable service, a failed call and a blank result,
and otherwise returns the trimmed text; the controller catches every
throw and substitutes the deterministic fallback. -/
def computeFinalSummary (summaryV : Option String) (contentV : String)
    (avail : Bool) (aiRaw : Option String) : String :=
  let generated :=
    if avail then
      match aiRaw with
      | some t =>
        if (strTrim t).length = 0 then generateFallbackSummary contentV
        else strTrim t
      | none => generateFallbackSummary contentV
    else generateFallbackSummary contentV
  match summaryV with
  | some s => if (strTrim s).length = 0 then generated else s
  | none => generated

/-- The stored article produced by a successful creation. -/
structure ArticleOut where
  title : String
  content : String
  author : String
  summary : String
  tags : List String
  createdBy : String
deriving DecidableEq

/-- The HTTP-facing outcome of `POST /articles` for an authenticated
user. -/
inductive ArticleResult where
  | created (a : ArticleOut)
  | validationError
deriving DecidableEq

/-- `createArticle` (articleController.ts lines 141-207): validate,
select the summary, store the article. -/
def createArticle (title content : String) (summary : Option String)
    (tags : List String) (user : UserRec) (avail : Bool)
    (aiRaw : Option String) : ArticleResult :=
  if !(articleValidate title content summary tags) then .validationError
  else
    let contentV := strTrim content
    let summaryV := summary.map strTrim
    let finalSummary := computeFinalSummary summaryV contentV avail aiRaw
    .created
      { title := strTrim title
        content := contentV
        author := user.username
        summary := finalSummary
        tags := (tags.map strTrim).map (fun tg => strTrim (strLower tg))
        createdBy := user.id }

/-! ## Lemmas: splitting -/

lemma splitOnBar_ne_nil (l : List Char) : splitOnBar l ≠ [] := by
  cases l with
  | nil => simp [splitOnBar]
  | cons c rest =>
    unfold splitOnBar
    cases splitOnBar rest with
    | nil => simp
    | cons s ss =>
      dsimp only
      split <;> simp

lemma splitOnBar_no_bar (p : List Char) (h : '|' ∉ p) : splitOnBar p = [p] := by
  induction p with
  | nil => rfl
  | cons c cs ih =>
    have hc : c ≠ '|' := fun e => h (e ▸ List.mem_cons_self _ _)
    have hcs : '|' ∉ cs := fun m => h (List.mem_cons_of_mem _ m)
    simp only [splitOnBar]
    rw [ih hcs]
    simp [hc]

lemma splitOnBar_append_bar (p t : List Char) (h : '|' ∉ p) :
    splitOnBar (p ++ '|' :: t) = p :: splitOnBar t := by
  induction p with
  | nil =>
    simp only [List.nil_append, splitOnBar]
    rcases hs : splitOnBar t with _ | ⟨s, ss⟩
    · exact absurd hs (splitOnBar_ne_nil t)
    · simp
  | cons c cs ih =>
    have hc : c ≠ '|' := fun e => h (e ▸ List.mem_cons_self _ _)
    have hcs : '|' ∉ cs := fun m => h (List.mem_cons_of_mem _ m)
    simp only [List.cons_append, splitOnBar, List.append_eq]
    rw [ih hcs]
    simp [hc]

lemma not_bar_append_singleton {acc : List Char} {c : Char}
    (hacc : '|' ∉ acc) (hc : c ≠ '|') : '|' ∉ acc.reverse ++ [c] := by
  simp only [List.mem_append, List.mem_reverse, List.mem_singleton]
  rintro (h | h)
  exacts [hacc h, hc h.symm]

lemma punctReplace_single_p {c : Char} (h : isPunct c = true) :
    punctReplace [c] = ['.', '|'] := by simp [punctReplace, h]

lemma punctReplace_single_n {c : Char} (h : isPunct c = false) :
    punctReplace [c] = [c] := by simp [punctReplace, h]

lemma punctReplace_cons₂_pn {c d : Char} {rest : List Char}
    (hc : isPunct c = true) (hd : isPunct d = false) :
    punctReplace (c :: d :: rest) = '.' :: '|' :: punctReplace (d :: rest) := by
  simp [punctReplace, hc, hd]

lemma punctReplace_cons₂_n {c d : Char} {rest : List Char}
    (hc : isPunct c = false) :
    punctReplace (c :: d :: rest) = c :: punctReplace (d :: rest) := by
  simp [punctReplace, hc]

lemma punctReplace_cons₂_pp {c d : Char} {rest : List Char}
    (hc : isPunct c = true) (hd : isPunct d = true) :
    punctReplace (c :: d :: rest) = punctReplace (d :: rest) := by
  simp [punctReplace, hc, hd]

lemma specSplitNormAux_cons₂_pp {c d : Char} {rest : List Char}
    (hc : isPunct c = true) (hd : isPunct d = true) (acc : List Char) :
    specSplitNormAux acc (c :: d :: rest) = specSplitNormAux acc (d :: rest) := by
  simp [specSplitNormAux, hc, hd]

lemma specSplitNormAux_cons₂_pn {c d : Char} {rest : List Char}
    (hc : isPunct c = true) (hd : isPunct d = false) (acc : List Char) :
    specSplitNormAux acc (c :: d :: rest)
      = (('.' :: acc).reverse) :: specSplitNormAux [] (d :: rest) := by
  simp [specSplitNormAux, hc, hd]

lemma isPunct_bar : isPunct '|' = false := by decide

lemma specSplitNormAux_cons₂_bar (acc : List Char) (d : Char) (rest : List Char) :
    specSplitNormAux acc ('|' :: d :: rest)
      = acc.reverse :: specSplitNormAux [] (d :: rest) := by
  simp [specSplitNormAux, isPunct_bar]

lemma specSplitNormAux_cons₂_n {c d : Char} {rest : List Char}
    (hc : isPunct c = false) (hb : c ≠ '|') (acc : List Char) :
    specSplitNormAux acc (c :: d :: rest)
      = specSplitNormAux (c :: acc) (d :: rest) := by
  simp [specSplitNormAux, hc, hb]

/-- The code's split (replace punctuation runs by `.|`, then split on
`|`) agrees with the amended split on every input, up to one trailing
empty segment. -/
lemma splitOnBar_punctReplace_norm (l : List Char) :
    ∀ acc : List Char, '|' ∉ acc →
      splitOnBar (acc.reverse ++ punctReplace l)
        = specSplitNormAux acc l
            ++ (if extraEmptyNorm l acc then [[]] else []) := by
  induction l using punctReplace.induct with
  | case1 =>
    intro acc hacc
    have hrev : '|' ∉ acc.reverse := by simpa using hacc
    simp only [punctReplace, List.append_nil, splitOnBar_no_bar _ hrev,
      specSplitNormAux, extraEmptyNorm]
    by_cases h0 : acc = []
    · subst h0; simp
    · simp [h0, List.isEmpty_iff]
  | case2 c hp =>
    intro acc hacc
    have hrev : '|' ∉ acc.reverse ++ ['.'] :=
      not_bar_append_singleton hacc (by decide)
    rw [punctReplace_single_p hp,
      show acc.reverse ++ ['.', '|'] = (acc.reverse ++ ['.']) ++ '|' :: [] by simp,
      splitOnBar_append_bar _ _ hrev]
    simp [specSplitNormAux, extraEmptyNorm, endsPunctBar, hp, splitOnBar]
  | case3 c hp =>
    intro acc hacc
    simp only [Bool.not_eq_true] at hp
    by_cases hb : c = '|'
    · subst hb
      rw [punctReplace_single_n hp,
        show acc.reverse ++ ['|'] = acc.reverse ++ '|' :: [] from rfl,
        splitOnBar_append_bar _ _ (by simpa using hacc)]
      simp [specSplitNormAux, extraEmptyNorm, endsPunctBar, hp, splitOnBar]
    · have hrev : '|' ∉ acc.reverse ++ [c] := not_bar_append_singleton hacc hb
      rw [punctReplace_single_n hp, splitOnBar_no_bar _ hrev]
      simp [specSplitNormAux, extraEmptyNorm, endsPunctBar, hp, hb]
  | case4 c d rest hp hq ih =>
    intro acc hacc
    rw [punctReplace_cons₂_pp hp hq, ih acc hacc,
      specSplitNormAux_cons₂_pp hp hq]
    simp only [extraEmptyNorm, endsPunctBar]
  | case5 c d rest hp hq ih =>
    intro acc hacc
    simp only [Bool.not_eq_true] at hq
    have hrev : '|' ∉ acc.reverse ++ ['.'] :=
      not_bar_append_singleton hacc (by decide)
    rw [punctReplace_cons₂_pn hp hq,
      show acc.reverse ++ '.' :: '|' :: punctReplace (d :: rest)
        = (acc.reverse ++ ['.']) ++ '|' :: punctReplace (d :: rest) by simp,
      splitOnBar_append_bar _ _ hrev]
    have hih := ih [] (by simp)
    simp only [List.reverse_nil, List.nil_append] at hih
    rw [hih, specSplitNormAux_cons₂_pn hp hq]
    simp [extraEmptyNorm, endsPunctBar]
  | case6 c d rest hp ih =>
    intro acc hacc
    simp only [Bool.not_eq_true] at hp
    by_cases hb : c = '|'
    · subst hb
      rw [punctReplace_cons₂_n hp, splitOnBar_append_bar _ _ (by simpa using hacc)]
      have hih := ih [] (by simp)
      simp only [List.reverse_nil, List.nil_append] at hih
      rw [hih, specSplitNormAux_cons₂_bar]
      simp [extraEmptyNorm, endsPunctBar]
    · have hacc' : '|' ∉ c :: acc := by
        intro hm
        rcases List.mem_cons.mp hm with h | h
        · exact hb h.symm
        · exact hacc h
      rw [punctReplace_cons₂_n hp,
        show acc.reverse ++ c :: punctReplace (d :: rest)
          = (c :: acc).reverse ++ punctReplace (d :: rest) by simp,
        ih (c :: acc) hacc',
        specSplitNormAux_cons₂_n hp hb]
      simp only [extraEmptyNorm, endsPunctBar]

lemma trimChars_nil : trimChars [] = [] := rfl

/-- The code's surviving candidates coincide with the amended split
filtered at the code's threshold, on every input. -/
lemma gfsCandidates_eq_norm (l : List Char) :
    gfsCandidates l
      = ((specSplitNorm l).map trimChars).filter (fun s => 20 < s.length) := by
  have hc := splitOnBar_punctReplace_norm l [] (by simp)
  simp only [List.reverse_nil, List.nil_append] at hc
  unfold gfsCandidates specSplitNorm
  rw [hc]
  cases hfl : extraEmptyNorm l [] with
  | false => simp
  | true =>
    simp only [if_true, List.map_append, List.filter_append, trimChars_nil]
    simp [trimChars_nil]

lemma gfsList_eq_assemble (l : List Char) :
    gfsList l = specAssemble l (gfsCandidates l) := rfl

lemma truncate_length_le (t : List Char) :
    (if 300 < t.length then t.take 297 ++ dots else t).length ≤ 300 := by
  split
  · simp only [List.length_append, List.length_take, dots, List.length_cons,
      List.length_nil]
    have := Nat.min_le_left 297 t.length
    omega
  · next h => omega

lemma fallback150_length_le (content : List Char) :
    (content.take 150 ++ (if 150 < content.length then dots else [])).length
      ≤ 300 := by
  split <;>
    simp only [List.length_append, List.length_take, dots, List.length_cons,
      List.length_nil] <;>
    · have := Nat.min_le_left 150 content.length
      omega

lemma specAssemble_length_le (content : List Char) (cands : List (List Char)) :
    (specAssemble content cands).length ≤ 300 := by
  unfold specAssemble
  split
  · exact fallback150_length_le content
  · exact truncate_length_le _

lemma joinSp_ne_nil {s : List Char} {ss : List (List Char)} (h : s ≠ []) :
    joinSp (s :: ss) ≠ [] := by
  cases ss with
  | nil => simpa [joinSp] using h
  | cons t ts => simp [joinSp]

lemma specAssemble_ne_nil (content : List Char) (cands : List (List Char))
    (hc : content ≠ []) (hall : ∀ s ∈ cands, 20 < s.length) :
    specAssemble content cands ≠ [] := by
  unfold specAssemble
  split
  · intro he
    rcases List.append_eq_nil.mp he with ⟨h1, _⟩
    rcases List.take_eq_nil_iff.mp h1 with h2 | h2
    · exact absurd h2 (by decide)
    · exact hc h2
  · next hne =>
    obtain ⟨s, ss, rfl⟩ : ∃ s ss, cands = s :: ss := by
      cases cands with
      | nil => simp at hne
      | cons a as => exact ⟨a, as, rfl⟩
    have hs : s ≠ [] := by
      have hl := hall s (List.mem_cons_self _ _)
      intro e; subst e; simp at hl
    obtain ⟨m, hm⟩ : ∃ m, min 3 (s :: ss).length = m + 1 := by
      refine ⟨min 2 ss.length, ?_⟩
      simp only [List.length_cons]
      omega
    dsimp only
    split
    · simp [dots]
    · rw [hm, List.take_succ_cons]
      exact joinSp_ne_nil hs

lemma gfsList_ne_nil (l : List Char) (h : l ≠ []) : gfsList l ≠ [] := by
  rw [gfsList_eq_assemble]
  refine specAssemble_ne_nil l _ h ?_
  intro s hs
  simp only [gfsCandidates] at hs
  have hp := List.of_mem_filter hs
  simpa using hp

/-! ## Claim C5 (Sentence Extractor algorithm) -/

/-- C5 counterexample: the extractor does not follow the specified
algorithm on every input.  Three concrete divergences, one per clause
the amendment changes: (a) a text whose final candidate is exactly 20
characters long — the specified noise filter ("discard candidates
shorter than 20 characters") keeps it, the code's `s.length > 20`
filter drops it; (b) a sentence ending in the punctuation run `?!` —
the specified split leaves the run on the candidate, the code
normalizes it to a single period; (c) a text containing a literal `|`
— the specified split keeps it inside one candidate, the code's
split-on-`|` mechanism separates there. -/
theorem claim_C5_counterexample :
    (generateFallbackSummary
        "This is a sufficiently long sentence for extraction. aaaaaaaaaaaaaaaaaaaa"
      = "This is a sufficiently long sentence for extraction."
    ∧ (⟨specSentenceExtract
        "This is a sufficiently long sentence for extraction. aaaaaaaaaaaaaaaaaaaa".data⟩ : String)
      = "This is a sufficiently long sentence for extraction. aaaaaaaaaaaaaaaaaaaa"
    ∧ generateFallbackSummary
        "This is a sufficiently long sentence for extraction. aaaaaaaaaaaaaaaaaaaa"
      ≠ ⟨specSentenceExtract
        "This is a sufficiently long sentence for extraction. aaaaaaaaaaaaaaaaaaaa".data⟩)
    ∧ (generateFallbackSummary
        "Was it truly and honestly a question?! Nobody will ever know the answer."
      = "Was it truly and honestly a question. Nobody will ever know the answer."
    ∧ generateFallbackSummary
        "Was it truly and honestly a question?! Nobody will ever know the answer."
      ≠ ⟨specSentenceExtract
        "Was it truly and honestly a question?! Nobody will ever know the answer.".data⟩)
    ∧ (generateFallbackSummary
        "This is quite a long first half|and quite a long second half here."
      = "This is quite a long first half and quite a long second half here."
    ∧ generateFallbackSummary
        "This is quite a long first half|and quite a long second half here."
      ≠ ⟨specSentenceExtract
        "This is quite a long first half|and quite a long second half here.".data⟩) :=
  ⟨⟨by decide, by decide, by decide⟩, ⟨by decide, by decide⟩, ⟨by decide, by decide⟩⟩

/-- C5 (amended): on every input text, `generateFallbackSummary`
follows the amended algorithm — split into candidates at each maximal
run of sentence-terminal punctuation (the run normalized to a single
period kept on the candidate) and at each literal `|`, trim
whitespace, keep only candidates strictly longer than 20 characters,
then fall back to the first 150 characters when none survives or join
the first `min(3, n)` survivors with single spaces, truncating to 297
characters plus an ellipsis when over 300.  On the spec's worked
scenario the output is exactly the two qualifying sentences joined by
a single space. -/
theorem claim_C5_amended :
    (∀ l : List Char, gfsList l = specSentenceExtractAmended l)
    ∧ generateFallbackSummary
        "Short. This is a sufficiently long sentence for extraction. Another qualifying sentence here now."
      = "This is a sufficiently long sentence for extraction. Another qualifying sentence here now." := by
  constructor
  · intro l
    rw [gfsList_eq_assemble, gfsCandidates_eq_norm]
    rfl
  · decide

/-- C5 witness: the amended equality evaluated at the spec's worked
scenario input. -/
theorem claim_C5_witness :
    gfsList
        "Short. This is a sufficiently long sentence for extraction. Another qualifying sentence here now.".data
      = specSentenceExtractAmended
        "Short. This is a sufficiently long sentence for extraction. Another qualifying sentence here now.".data :=
  claim_C5_amended.1 _

/-! ## Claim C6 (Sentence Extractor determinism and bounds) -/

/-- C6: the Sentence Extractor is deterministic (identical inputs give
identical outputs — it is a pure function of its argument), its output
never exceeds 300 characters, and its output is non-empty on every
non-empty input. -/
theorem claim_C6_thm :
    (∀ s t : String, s = t → generateFallbackSummary s = generateFallbackSummary t)
    ∧ (∀ s : String, (generateFallbackSummary s).length ≤ 300)
    ∧ (∀ s : String, s ≠ "" → generateFallbackSummary s ≠ "") := by
  refine ⟨fun s t h => by rw [h], fun s => ?_, fun s h => ?_⟩
  · show (gfsList s.data).length ≤ 300
    rw [gfsList_eq_assemble]
    exact specAssemble_length_le _ _
  · have hd : s.data ≠ [] := by
      intro e
      apply h
      cases s with
      | mk l =>
        simp only at e
        rw [e]
    intro he
    apply gfsList_ne_nil s.data hd
    have := congrArg String.data he
    simpa using this
  
/-- C6 witness: the theorem applied to a concrete non-empty input. -/
theorem claim_C6_witness :
    ("Lorem" : String) ≠ "" ∧ generateFallbackSummary "Lorem" ≠ "" :=
  ⟨by decide, claim_C6_thm.2.2 "Lorem" (by decide)⟩

/-! ## Claim C7 (Pagination Resolver) -/

lemma resolvedLimit_bounds (f : PagField) :
    1 ≤ resolvedLimit f ∧ resolvedLimit f ≤ 100 := by
  cases f with
  | absent => simp [resolvedLimit]
  | num n =>
    simp only [resolvedLimit, parseIntOr]
    split <;> omega
  | nonnum =>
    simp only [resolvedLimit, parseIntOr]
    omega

lemma resolvedPage1_ge_one (f : PagField) : 1 ≤ resolvedPage1 f := by
  cases f with
  | absent => simp [resolvedPage1]
  | num n =>
    simp only [resolvedPage1, parseIntOr]
    split <;> omega
  | nonnum =>
    simp only [resolvedPage1, parseIntOr]
    omega

/-- C7: for every pagination query (absent, zero, negative,
out-of-range or non-numeric components), the resolved page is at
least 1 (exactly 1 for a non-positive or non-numeric requested page),
the resolved limit lies in `[1, 100]` with default 10, a supplied
offset overrides the page computation as `page = floor(max(0, offset)
/ limit) + 1`, and `skip = (page - 1) * limit`. -/
theorem claim_C7_thm (q : PagQuery) :
    1 ≤ (parsePaginationQuery q).page
    ∧ (1 ≤ (parsePaginationQuery q).limit ∧ (parsePaginationQuery q).limit ≤ 100)
    ∧ (q.limit = PagField.absent → (parsePaginationQuery q).limit = 10)
    ∧ (q.limit = PagField.num 0 → (parsePaginationQuery q).limit = 10)
    ∧ (q.limit = PagField.num 101 → (parsePaginationQuery q).limit = 100)
    ∧ (∀ n : Int, n < 0 → q.limit = PagField.num n →
        (parsePaginationQuery q).limit = 1)
    ∧ (q.offset = PagField.absent → q.page = PagField.absent →
        (parsePaginationQuery q).page = 1)
    ∧ (∀ n : Int, n ≤ 0 → q.offset = PagField.absent → q.page = PagField.num n →
        (parsePaginationQuery q).page = 1)
    ∧ (q.offset = PagField.absent → q.page = PagField.nonnum →
        (parsePaginationQuery q).page = 1)
    ∧ (∀ n : Int, q.offset = PagField.num n →
        (parsePaginationQuery q).page
          = (max 0 n).toNat / (parsePaginationQuery q).limit + 1)
    ∧ (q.offset = PagField.nonnum → (parsePaginationQuery q).page = 1)
    ∧ (parsePaginationQuery q).skip
        = ((parsePaginationQuery q).page - 1) * (parsePaginationQuery q).limit := by
  obtain ⟨fp, fl, fo⟩ := q
  refine ⟨?_, resolvedLimit_bounds fl, ?_, ?_, ?_, ?_, ?_, ?_, ?_, ?_, ?_, rfl⟩
  · cases fo with
    | absent => exact resolvedPage1_ge_one fp
    | num n => exact Nat.le_add_left 1 _
    | nonnum => exact Nat.le_add_left 1 _
  · rintro rfl; rfl
  · rintro rfl; rfl
  · rintro rfl; rfl
  · rintro n hn rfl
    show (min 100 (max 1 (parseIntOr (PagField.num n) 10))).toNat = 1
    simp only [parseIntOr]
    split <;> omega
  · rintro rfl rfl; rfl
  · rintro n hn rfl rfl
    show (max 1 (parseIntOr (PagField.num n) 1)).toNat = 1
    simp only [parseIntOr]
    split <;> omega
  · rintro rfl rfl; rfl
  · rintro n rfl
    show (max 0 (parseIntOr (PagField.num n) 0)).toNat / resolvedLimit fl + 1
        = (max 0 n).toNat / resolvedLimit fl + 1
    simp only [parseIntOr]
    split
    · next h => subst h; rfl
    · rfl
  · rintro rfl
    show (max 0 (parseIntOr PagField.nonnum 0)).toNat / resolvedLimit fl + 1 = 1
    simp [parseIntOr]

/-- C7 witness: the theorem applied to the concrete query `page=-5,
limit=0, offset` non-numeric. -/
theorem claim_C7_witness :
    1 ≤ (parsePaginationQuery ⟨PagField.num (-5), PagField.num 0, PagField.nonnum⟩).page
    ∧ (parsePaginationQuery ⟨PagField.num (-5), PagField.num 0, PagField.nonnum⟩).limit = 10
    ∧ (parsePaginationQuery ⟨PagField.num (-5), PagField.num 0, PagField.nonnum⟩).page = 1 :=
  ⟨(claim_C7_thm _).1,
   (claim_C7_thm _).2.2.2.1 rfl,
   (claim_C7_thm ⟨PagField.num (-5), PagField.num 0, PagField.nonnum⟩).2.2.2.2.2.2.2.2.2.2.1 rfl⟩

/-! ## Claim C3 (aggregate consistency) -/

lemma countP_kinds (l : List InteractionRec) :
    l.countP (fun r => decide (r.kind = Kind.view))
      + l.countP (fun r => decide (r.kind = Kind.like))
      + l.countP (fun r => decide (r.kind = Kind.share)) = l.length := by
  induction l with
  | nil => rfl
  | cons r t ih =>
    cases hr : r.kind <;>
      simp [List.countP_cons, hr] <;>
      omega

/-- C3: whenever `GET /interactions` answers 200, the three stat
counters sum to the pagination `totalCount`, for every user and every
filter/pagination combination, both sides being evaluated against the
same store snapshot. -/
theorem claim_C3_thm (db : DB) (u : String) (q : PagQuery)
    (tf : Option Kind) (af : Option String) (data : List InteractionDoc)
    (pag : PaginationMeta) (stats : StatsOut)
    (h : getUserInteractions db u q tf af = GetResult.ok data pag stats) :
    stats.totalViews + stats.totalLikes + stats.totalShares = pag.total := by
  unfold getUserInteractions at h
  split at h
  · exact absurd h (by simp)
  · injection h with h1 h2 h3
    subst h1
    subst h2
    subst h3
    exact countP_kinds _

/-- C3 witness: the theorem applied to a one-interaction store with no
filters. -/
theorem claim_C3_witness :
    (StatsOut.mk 0 1 0).totalViews + (StatsOut.mk 0 1 0).totalLikes
        + (StatsOut.mk 0 1 0).totalShares
      = (createPaginationMeta 1 10 1).total :=
  claim_C3_thm ⟨[], [], [⟨"i1", "u1", "a1", Kind.like, 5⟩]⟩ "u1"
    ⟨PagField.absent, PagField.absent, PagField.absent⟩ none none
    [⟨"i1", none, Kind.like, 5, none⟩] (createPaginationMeta 1 10 1) ⟨0, 1, 0⟩
    (by decide)

/-! ## Claim C8 (user scoping) -/

lemma filter_and_split {α : Type} (A B : α → Bool) (l : List α) :
    l.filter (fun a => A a && B a) = (l.filter A).filter B := by
  induction l with
  | nil => rfl
  | cons x t ih =>
    by_cases hA : A x <;> by_cases hB : B x <;>
      simp [List.filter_cons, hA, hB, ih]

lemma matchedRecords_eq_filter (db : DB) (u : String) (tf : Option Kind)
    (af : Option String) :
    matchedRecords db u tf af
      = (db.interactions.filter (fun r => decide (r.userId = u))).filter
          (fun r => matchesType tf r && matchesArticle af r) :=
  filter_and_split _ _ _

lemma matchedRecords_userId_eq (db db' : DB) (u : String) (tf : Option Kind)
    (af : Option String)
    (hf : db.interactions.filter (fun r => decide (r.userId = u))
        = db'.interactions.filter (fun r => decide (r.userId = u))) :
    matchedRecords db u tf af = matchedRecords db' u tf af := by
  rw [matchedRecords_eq_filter, matchedRecords_eq_filter, hf]

/-- C8: the interaction listing is always scoped to the requesting
user: every record selected for the response page belongs to the
requesting user; and (two-run form) two stores that agree on the
requesting user's interaction records and on the article collection
produce identical responses, whatever other users' records hold. -/
theorem claim_C8_thm :
    (∀ (db : DB) (u : String) (q : PagQuery) (tf : Option Kind)
        (af : Option String) (r : InteractionRec),
        r ∈ selectedRecords db u q tf af → r.userId = u)
    ∧ (∀ (db db' : DB) (u : String) (q : PagQuery) (tf : Option Kind)
        (af : Option String),
        db.articles = db'.articles →
        db.interactions.filter (fun r => decide (r.userId = u))
          = db'.interactions.filter (fun r => decide (r.userId = u)) →
        getUserInteractions db u q tf af = getUserInteractions db' u q tf af) := by
  constructor
  · intro db u q tf af r hr
    unfold selectedRecords at hr
    have h1 : r ∈ sortByCreatedAtDesc (matchedRecords db u tf af) :=
      List.drop_subset _ _ (List.take_subset _ _ hr)
    have h2 : r ∈ matchedRecords db u tf af := by
      unfold sortByCreatedAtDesc at h1
      exact (List.perm_insertionSort _ _).mem_iff.mp h1
    have h3 := (List.mem_filter.mp h2).2
    simp only [matchesFilters, Bool.and_eq_true, decide_eq_true_eq] at h3
    exact h3.1
  · intro db db' u q tf af ha hf
    have hm := matchedRecords_userId_eq db db' u tf af hf
    unfold getUserInteractions selectedRecords
    rw [hm, ha]

/-- C8 witness: removing another user's record leaves the response
unchanged. -/
theorem claim_C8_witness :
    getUserInteractions
        ⟨[], [], [⟨"i1", "u1", "a1", Kind.like, 5⟩, ⟨"i2", "u2", "a1", Kind.view, 6⟩]⟩
        "u1" ⟨PagField.absent, PagField.absent, PagField.absent⟩ none none
      = getUserInteractions ⟨[], [], [⟨"i1", "u1", "a1", Kind.like, 5⟩]⟩
        "u1" ⟨PagField.absent, PagField.absent, PagField.absent⟩ none none :=
  claim_C8_thm.2
    ⟨[], [], [⟨"i1", "u1", "a1", Kind.like, 5⟩, ⟨"i2", "u2", "a1", Kind.view, 6⟩]⟩
    ⟨[], [], [⟨"i1", "u1", "a1", Kind.like, 5⟩]⟩
    "u1" ⟨PagField.absent, PagField.absent, PagField.absent⟩ none none
    (by decide) (by decide)

/-! ## Claim C9 (privacy suppression and article denormalization) -/

/-- C9: whenever `GET /interactions` answers 200 over a store whose
interactions all reference existing articles, no returned record
carries a `userId` field, and every returned record carries the
referenced article's denormalized `title`, `author`, `tags` and
`summary`. -/
theorem claim_C9_thm (db : DB) (u : String) (q : PagQuery) (tf : Option Kind)
    (af : Option String) (data : List InteractionDoc) (pag : PaginationMeta)
    (stats : StatsOut)
    (hok : getUserInteractions db u q tf af = GetResult.ok data pag stats)
    (href : ∀ r ∈ db.interactions, ∃ a ∈ db.articles, a.id = r.articleId) :
    ∀ d ∈ data, d.userIdField = none
      ∧ ∃ a ∈ db.articles, d.articleId
          = some { id := a.id, title := a.title, author := a.author,
                   tags := a.tags, summary := a.summary } := by
  have hdata : data = (selectedRecords db u q tf af).map (listProject db.articles) := by
    unfold getUserInteractions at hok
    split at hok
    · exact absurd hok (by simp)
    · injection hok with h1 h2 h3
      exact h1.symm
  subst hdata
  intro d hd
  obtain ⟨r, hrsel, rfl⟩ := List.mem_map.mp hd
  have hrdb : r ∈ db.interactions := by
    unfold selectedRecords at hrsel
    have h1 : r ∈ sortByCreatedAtDesc (matchedRecords db u tf af) :=
      List.drop_subset _ _ (List.take_subset _ _ hrsel)
    have h2 : r ∈ matchedRecords db u tf af := by
      unfold sortByCreatedAtDesc at h1
      exact (List.perm_insertionSort _ _).mem_iff.mp h1
    exact (List.mem_filter.mp h2).1
  refine ⟨rfl, ?_⟩
  obtain ⟨a, hamem, haid⟩ := href r hrdb
  have hsome : (db.articles.find? (fun x => decide (x.id = r.articleId))).isSome = true := by
    rw [List.find?_isSome]
    exact ⟨a, hamem, by simp [haid]⟩
  obtain ⟨a', ha'⟩ := Option.isSome_iff_exists.mp hsome
  refine ⟨a', List.mem_of_find?_eq_some ha', ?_⟩
  show (listProject db.articles r).articleId = _
  unfold listProject selectMinusUserId toListedDocRaw
  rw [ha']
  rfl

/-- C9 witness: the theorem applied to a concrete store with one
article and one interaction referencing it. -/
theorem claim_C9_witness :
    (InteractionDoc.mk "i1" (some ⟨"a1", "T", "Auth", ["t1"], "Sum"⟩)
        Kind.like 5 none).userIdField = none :=
  (claim_C9_thm
    ⟨[], [⟨"a1", "T", "Auth", ["t1"], "Sum", "Content"⟩],
      [⟨"i1", "u1", "a1", Kind.like, 5⟩]⟩ "u1"
    ⟨PagField.absent, PagField.absent, PagField.absent⟩ none none
    [⟨"i1", some ⟨"a1", "T", "Auth", ["t1"], "Sum"⟩, Kind.like, 5, none⟩]
    (createPaginationMeta 1 10 1) ⟨0, 1, 0⟩ (by decide) (by decide)
    (InteractionDoc.mk "i1" (some ⟨"a1", "T", "Auth", ["t1"], "Sum"⟩)
      Kind.like 5 none)
    (by decide)).1

/-! ## Claims C1, C2, C10 (interaction creation) -/

lemma createInteraction_fresh (db : DB) (u aStr kStr : String) (k : Kind)
    (newId : String) (now : Nat)
    (hk : parseKind kStr = some k) (hhex : isHex24 aStr = true)
    (hart : ∃ a ∈ db.articles, a.id = aStr)
    (hnone : ∀ r ∈ db.interactions, sameTriple u aStr k r = false) :
    createInteraction db newId now u aStr kStr
      = (CreateResult.created (populateCreated
            ⟨db.users, db.articles, db.interactions ++ [⟨newId, u, aStr, k, now⟩]⟩
            newId),
         ⟨db.users, db.articles, db.interactions ++ [⟨newId, u, aStr, k, now⟩]⟩) := by
  obtain ⟨a, ham, haid⟩ := hart
  have hfa : (db.articles.find? (fun x => decide (x.id = aStr))).isSome = true := by
    rw [List.find?_isSome]
    exact ⟨a, ham, by simp [haid]⟩
  obtain ⟨art, hart'⟩ := Option.isSome_iff_exists.mp hfa
  have hfn : db.interactions.find? (sameTriple u aStr k) = none := by
    rw [List.find?_eq_none]
    intro x hx
    simp [hnone x hx]
  have hany : db.interactions.any (sameTriple u aStr k) = false := by
    rw [List.any_eq_false]
    intro x hx
    simp [hnone x hx]
  unfold createInteraction createInteractionR
  rw [hhex, hk, hart']
  simp only [Bool.not_true, Bool.false_eq_true, if_false]
  rw [hfn]
  simp only [List.append_nil, hany, Bool.false_eq_true, if_false]

lemma createInteraction_existing (db : DB) (u aStr kStr : String) (k : Kind)
    (newId : String) (now : Nat) (r : InteractionRec)
    (hk : parseKind kStr = some k) (hhex : isHex24 aStr = true)
    (hart : ∃ a ∈ db.articles, a.id = aStr)
    (hfound : db.interactions.find? (sameTriple u aStr k) = some r) :
    createInteraction db newId now u aStr kStr
      = (CreateResult.alreadyExists r, db) := by
  obtain ⟨a, ham, haid⟩ := hart
  have hfa : (db.articles.find? (fun x => decide (x.id = aStr))).isSome = true := by
    rw [List.find?_isSome]
    exact ⟨a, ham, by simp [haid]⟩
  obtain ⟨art, hart'⟩ := Option.isSome_iff_exists.mp hfa
  unfold createInteraction createInteractionR
  rw [hhex, hk, hart']
  simp only [Bool.not_true, Bool.false_eq_true, if_false]
  rw [hfound]

lemma populateCreated_append (db : DB) (newRec : InteractionRec)
    (hfresh : ∀ r ∈ db.interactions, r.id ≠ newRec.id) :
    populateCreated ⟨db.users, db.articles, db.interactions ++ [newRec]⟩ newRec.id
      = some { id := newRec.id,
               userId := (db.users.find? (fun x => decide (x.id = newRec.userId))).map
                 (fun x => { id := x.id, username := x.username }),
               articleId := (db.articles.find? (fun a => decide (a.id = newRec.articleId))).map
                 (fun a => { id := a.id, title := a.title, author := a.author }),
               interactionType := newRec.kind,
               createdAt := newRec.createdAt } := by
  have hf : (db.interactions ++ [newRec]).find? (fun r => decide (r.id = newRec.id))
      = some newRec := by
    rw [List.find?_append]
    have h1 : db.interactions.find? (fun r => decide (r.id = newRec.id)) = none := by
      rw [List.find?_eq_none]
      intro x hx
      simp [hfresh x hx]
    rw [h1]
    simp [List.find?]
  unfold populateCreated
  rw [hf]
  rfl

/-- C1: idempotent interaction recording.  From a store holding no
record for the triple `(U, A, kind)` and an existing article `A`,
submitting the same interaction twice stores exactly one record for
the triple; the second submission answers with the first record, its
identifier and creation timestamp unchanged, as a success (`success:
true`, status 409) — distinct from a validation failure, whose
response has `success: false`. -/
theorem claim_C1_thm
    (db : DB) (u aStr kStr : String) (k : Kind) (newId1 newId2 : String)
    (now1 now2 : Nat)
    (hk : parseKind kStr = some k)
    (hhex : isHex24 aStr = true)
    (hart : ∃ a ∈ db.articles, a.id = aStr)
    (hnone : countTriple db u aStr k = 0)
    (hfresh : ∀ r ∈ db.interactions, r.id ≠ newId1) :
    countTriple (createInteraction (createInteraction db newId1 now1 u aStr kStr).2
        newId2 now2 u aStr kStr).2 u aStr k = 1
    ∧ (∃ d, (createInteraction db newId1 now1 u aStr kStr).1
          = CreateResult.created (some d) ∧ d.id = newId1 ∧ d.createdAt = now1)
    ∧ (∃ r, (createInteraction (createInteraction db newId1 now1 u aStr kStr).2
          newId2 now2 u aStr kStr).1 = CreateResult.alreadyExists r
        ∧ r.id = newId1 ∧ r.createdAt = now1)
    ∧ ((createInteraction (createInteraction db newId1 now1 u aStr kStr).2
          newId2 now2 u aStr kStr).1).success = true
    ∧ ((createInteraction (createInteraction db newId1 now1 u aStr kStr).2
          newId2 now2 u aStr kStr).1).status = 409
    ∧ CreateResult.validationError.success = false := by
  have hnone' : ∀ r ∈ db.interactions, sameTriple u aStr k r = false := by
    intro r hr
    have h := List.countP_eq_zero.mp hnone r hr
    simpa using h
  have e1 := createInteraction_fresh db u aStr kStr k newId1 now1 hk hhex hart hnone'
  have hfound : (db.interactions ++ [(⟨newId1, u, aStr, k, now1⟩ : InteractionRec)]).find?
      (sameTriple u aStr k) = some ⟨newId1, u, aStr, k, now1⟩ := by
    rw [List.find?_append]
    have h1 : db.interactions.find? (sameTriple u aStr k) = none := by
      rw [List.find?_eq_none]
      intro x hx
      simp [hnone' x hx]
    rw [h1]
    simp [List.find?, sameTriple]
  have e2 := createInteraction_existing
    ⟨db.users, db.articles, db.interactions ++ [⟨newId1, u, aStr, k, now1⟩]⟩
    u aStr kStr k newId2 now2 ⟨newId1, u, aStr, k, now1⟩ hk hhex hart hfound
  rw [e1]
  simp only [e2]
  refine ⟨?_, ?_, ⟨⟨newId1, u, aStr, k, now1⟩, rfl, rfl, rfl⟩, rfl, rfl, rfl⟩
  · show countTriple ⟨db.users, db.articles,
      db.interactions ++ [⟨newId1, u, aStr, k, now1⟩]⟩ u aStr k = 1
    unfold countTriple
    rw [List.countP_append]
    have h0 : db.interactions.countP (sameTriple u aStr k) = 0 := hnone
    rw [h0]
    simp [List.countP, List.countP.go, sameTriple]
  · have hp := populateCreated_append db ⟨newId1, u, aStr, k, now1⟩ hfresh
    exact ⟨_, by rw [hp], rfl, rfl⟩

/-- C1 witness: the theorem applied to a concrete store with one
article and no interactions. -/
theorem claim_C1_witness :
    countTriple (createInteraction (createInteraction
        ⟨[⟨"507f1f77bcf86cd799439011", "johndoe"⟩],
         [⟨"507f1f77bcf86cd799439012", "T", "A", [], "S", "C"⟩], []⟩
        "bbbbbbbbbbbbbbbbbbbbbbbb" 5 "507f1f77bcf86cd799439011"
        "507f1f77bcf86cd799439012" "like").2
        "cccccccccccccccccccccccc" 9 "507f1f77bcf86cd799439011"
        "507f1f77bcf86cd799439012" "like").2
      "507f1f77bcf86cd799439011" "507f1f77bcf86cd799439012" Kind.like = 1 :=
  (claim_C1_thm
    ⟨[⟨"507f1f77bcf86cd799439011", "johndoe"⟩],
     [⟨"507f1f77bcf86cd799439012", "T", "A", [], "S", "C"⟩], []⟩
    "507f1f77bcf86cd799439011" "507f1f77bcf86cd799439012" "like" Kind.like
    "bbbbbbbbbbbbbbbbbbbbbbbb" "cccccccccccccccccccccccc" 5 9
    (by decide) (by decide) ⟨⟨"507f1f77bcf86cd799439012", "T", "A", [], "S", "C"⟩,
      by decide, by decide⟩ (by decide) (by decide)).1

/-- C2: the claim is right and the code is wrong.  When a concurrent
duplicate submission commits between the existence check and the
`save()`, the unique-index violation raised by `save()` is swallowed
by the controller's generic catch and surfaced as a 500
`success: false` response — not converted into the "already exists"
success path that the spec mandates. -/
theorem claim_C2_thm :
    ((createInteractionR
        ⟨[⟨"507f1f77bcf86cd799439011", "johndoe"⟩],
         [⟨"507f1f77bcf86cd799439012", "T", "A", [], "S", "C"⟩], []⟩
        [⟨"aaaaaaaaaaaaaaaaaaaaaaaa", "507f1f77bcf86cd799439011",
          "507f1f77bcf86cd799439012", Kind.like, 4⟩]
        "bbbbbbbbbbbbbbbbbbbbbbbb" 5 "507f1f77bcf86cd799439011"
        "507f1f77bcf86cd799439012" "like").1 = CreateResult.serverError)
    ∧ CreateResult.serverError.status = 500
    ∧ CreateResult.serverError.success = false
    ∧ ((createInteractionR
        ⟨[⟨"507f1f77bcf86cd799439011", "johndoe"⟩],
         [⟨"507f1f77bcf86cd799439012", "T", "A", [], "S", "C"⟩], []⟩
        [⟨"aaaaaaaaaaaaaaaaaaaaaaaa", "507f1f77bcf86cd799439011",
          "507f1f77bcf86cd799439012", Kind.like, 4⟩]
        "bbbbbbbbbbbbbbbbbbbbbbbb" 5 "507f1f77bcf86cd799439011"
        "507f1f77bcf86cd799439012" "like").1
      ≠ CreateResult.alreadyExists ⟨"aaaaaaaaaaaaaaaaaaaaaaaa",
          "507f1f77bcf86cd799439011", "507f1f77bcf86cd799439012", Kind.like, 4⟩) :=
  ⟨by decide, rfl, rfl, by decide⟩

/-- C10: a successful 201 creation response carries the `userId` field,
populated with the interacting user's username, alongside the article
reference — the user reference that the listing path suppresses. -/
theorem claim_C10_thm
    (db : DB) (u : UserRec) (art : ArticleRec) (kStr : String) (k : Kind)
    (newId : String) (now : Nat)
    (hk : parseKind kStr = some k)
    (hhex : isHex24 art.id = true)
    (hu : db.users.find? (fun x => decide (x.id = u.id)) = some u)
    (hart : db.articles.find? (fun a => decide (a.id = art.id)) = some art)
    (hnone : ∀ r ∈ db.interactions, sameTriple u.id art.id k r = false)
    (hfresh : ∀ r ∈ db.interactions, r.id ≠ newId) :
    (createInteraction db newId now u.id art.id kStr).1
      = CreateResult.created (some
          { id := newId,
            userId := some { id := u.id, username := u.username },
            articleId := some { id := art.id, title := art.title, author := art.author },
            interactionType := k,
            createdAt := now })
    ∧ ((createInteraction db newId now u.id art.id kStr).1).status = 201 := by
  have hartex : ∃ a ∈ db.articles, a.id = art.id :=
    ⟨art, List.mem_of_find?_eq_some hart, rfl⟩
  have e1 := createInteraction_fresh db u.id art.id kStr k newId now hk hhex hartex hnone
  have hp := populateCreated_append db ⟨newId, u.id, art.id, k, now⟩ hfresh
  rw [e1]
  constructor
  · show CreateResult.created (populateCreated
        ⟨db.users, db.articles, db.interactions ++ [⟨newId, u.id, art.id, k, now⟩]⟩ newId) = _
    rw [hp, hu, hart]
    rfl
  · rfl

/-- C10 witness: the theorem applied to a concrete store. -/
theorem claim_C10_witness :
    (createInteraction
        ⟨[⟨"507f1f77bcf86cd799439011", "johndoe"⟩],
         [⟨"507f1f77bcf86cd799439012", "T", "A", [], "S", "C"⟩], []⟩
        "bbbbbbbbbbbbbbbbbbbbbbbb" 5 "507f1f77bcf86cd799439011"
        "507f1f77bcf86cd799439012" "like").1
      = CreateResult.created (some
          { id := "bbbbbbbbbbbbbbbbbbbbbbbb",
            userId := some { id := "507f1f77bcf86cd799439011", username := "johndoe" },
            articleId := some { id := "507f1f77bcf86cd799439012", title := "T", author := "A" },
            interactionType := Kind.like,
            createdAt := 5 }) :=
  (claim_C10_thm
    ⟨[⟨"507f1f77bcf86cd799439011", "johndoe"⟩],
     [⟨"507f1f77bcf86cd799439012", "T", "A", [], "S", "C"⟩], []⟩
    ⟨"507f1f77bcf86cd799439011", "johndoe"⟩
    ⟨"507f1f77bcf86cd799439012", "T", "A", [], "S", "C"⟩
    "like" Kind.like "bbbbbbbbbbbbbbbbbbbbbbbb" 5
    (by decide) (by decide) (by decide) (by decide) (by decide) (by decide)).1

/-! ## Claim C4 (summary fallback guarantee) -/

lemma generateFallbackSummary_ne_empty (s : String) (h : s.data ≠ []) :
    generateFallbackSummary s ≠ "" := by
  intro he
  apply gfsList_ne_nil s.data h
  have hc := congrArg String.data he
  simpa using hc

/-- C4: for a successful creation whose caller omits the summary (a
blank or whitespace-only supplied summary is rejected by validation
before this code runs, so no successful creation carries one), with
the external AI unavailable or its call throwing, the request still
succeeds — the article is created with no HTTP error — and the stored
summary is exactly the deterministic `generateFallbackSummary` of the
stored content, which is non-empty. -/
theorem claim_C4_thm
    (title content : String) (summary : Option String) (tags : List String)
    (user : UserRec) (avail : Bool) (aiRaw : Option String)
    (hval : articleValidate title content summary tags = true)
    (hblank : summary = none ∨ ∃ s, summary = some s ∧ strTrim s = "")
    (hai : avail = false ∨ aiRaw = none) :
    createArticle title content summary tags user avail aiRaw
      = ArticleResult.created
          { title := strTrim title, content := strTrim content,
            author := user.username,
            summary := generateFallbackSummary (strTrim content),
            tags := (tags.map strTrim).map (fun tg => strTrim (strLower tg)),
            createdBy := user.id }
    ∧ generateFallbackSummary (strTrim content) ≠ "" := by
  have hsum : summary = none := by
    rcases hblank with h | ⟨s, hs, hst⟩
    · exact h
    · exfalso
      subst hs
      simp only [articleValidate, Bool.and_eq_true, decide_eq_true_eq] at hval
      obtain ⟨⟨⟨⟨⟨hA, hB⟩, hC⟩, hM⟩, hD⟩, hE⟩ := hval
      rw [hst] at hM
      simp at hM
  subst hsum
  have hC : 50 ≤ (strTrim content).length := by
    simp only [articleValidate, Bool.and_eq_true, decide_eq_true_eq] at hval
    obtain ⟨⟨⟨⟨⟨hA, hB⟩, hC⟩, hM⟩, hD⟩, hE⟩ := hval
    exact hC
  have hgen : computeFinalSummary none (strTrim content) avail aiRaw
      = generateFallbackSummary (strTrim content) := by
    unfold computeFinalSummary
    rcases hai with h | h
    · subst h; rfl
    · subst h
      cases avail <;> rfl
  have hdata : (strTrim content).data ≠ [] := by
    intro he
    have hz : (strTrim content).length = 0 := by
      show (strTrim content).data.length = 0
      rw [he]
      rfl
    omega
  constructor
  · unfold createArticle
    rw [hval]
    simp only [Bool.not_true, Bool.false_eq_true, if_false]
    rw [show Option.map strTrim none = (none : Option String) from rfl, hgen]
  · exact generateFallbackSummary_ne_empty _ hdata

/-- C4 witness: the theorem applied to a concrete creation with the
summary omitted and the AI unavailable. -/
theorem claim_C4_witness :
    createArticle "My Title"
        "This is a sufficiently long article content body for validation." none []
        ⟨"u1", "john"⟩ false none
      = ArticleResult.created
          { title := strTrim "My Title",
            content := strTrim "This is a sufficiently long article content body for validation.",
            author := "john",
            summary := generateFallbackSummary
              (strTrim "This is a sufficiently long article content body for validation."),
            tags := (([] : List String).map strTrim).map (fun tg => strTrim (strLower tg)),
            createdBy := "u1" }
    ∧ generateFallbackSummary
        (strTrim "This is a sufficiently long article content body for validation.") ≠ "" :=
  claim_C4_thm "My Title"
    "This is a sufficiently long article content body for validation." none []
    ⟨"u1", "john"⟩ false none (by decide) (Or.inl rfl) (Or.inl rfl)

end ArticleArc

